import Mathlib

/-!
Verification of the exclusive command scheduler of the booster-t1 command
server (`robot_commander/booster_t1_robot.py`, class `BoosterT1Commander`,
together with the mock commander and the HTTP front-end in `main.py`).

The Python scheduler runs on a single asyncio event loop: code between two
suspension points executes atomically, tasks created with
`asyncio.create_task` are only scheduled later by the loop, and
`asyncio.Lock.acquire` suspends exactly when the lock is currently held.
The embedding below is a labelled transition system whose atomic steps are
exactly the suspension-point-free blocks of the source:

* `submit` models the public entry points `wave_hand`, `move_forward`,
  `move_backward`, `turn_left`, `turn_right` (they are textually identical
  up to the `_execute_*` target they dispatch): check `self.busy()`; if
  busy, `put_nowait` into the capacity-1 `command_queue` (a full queue
  raises `QueueFull`, which is caught and logged, dropping the command);
  otherwise `asyncio.create_task(self._execute_*(parameters))`, which
  creates a new task still at its start.  No `await` occurs in the body, so
  the whole entry point is one atomic block, and the created task has not
  run yet when the caller regains control.
* `runTask` models one atomic block of a background task executing
  `_execute_*`: from its start, `async with self.busy_lock` succeeds only
  when the lock is free, after which the driver effect is issued and
  `asyncio.sleep` suspends the task; when the sleep elapses, the
  neutralizing driver call, the lock release at the end of `async with`,
  and `_process_next_command`'s empty-check plus `get_nowait` all run with
  no intervening suspension point, hence form one atomic block.  The
  drained command is run by `await command(parameters)` in the same task,
  which therefore continues at the start of the drained command's
  execution.  The call stack that `_process_next_command` builds unwinds
  with no further effects, so the continuation is modelled tail-recursively.
* `cancelWaveHand` models the synchronous method `cancel_wave_hand`.

Driver calls (`robot_client.Move`, `robot_client.WaveHand`) return an
integer result chosen by the environment; it is carried on the step label,
and a non-zero result is logged (`logger.error`), which the model records
as a Boolean flag.
-/

/-- The five command kinds accepted by the scheduler, one per public
submit entry point. -/
inductive Cmd
  | waveHand
  | moveForward
  | moveBackward
  | turnLeft
  | turnRight
  deriving DecidableEq

/-- The `parameters` dict passed to every entry point.  The scheduler reads
only the key `"duration"` (in `_execute_wave_hand`:
`parameters.get("duration", 1)`); an absent key is `none`.  Numeric values
are modelled as rationals. -/
structure Params where
  duration : Option ℚ
  deriving DecidableEq

/-- A call issued to the actuator driver: `robot_client.Move(vx, vy, wz)`
or `robot_client.WaveHand(action)` with `isOpen = true` for
`B1HandAction.kHandOpen` and `false` for `kHandClose`. -/
inductive DriverCall
  | move (vx vy wz : ℚ)
  | hand (isOpen : Bool)
  deriving DecidableEq

/-- The physical-effect driver call of each command, from the body of the
corresponding `_execute_*` method:
wave_hand → `WaveHand(kHandOpen)`, move_forward → `Move(0.5, 0.0, 0.0)`,
move_backward → `Move(-0.2, 0.0, 0.0)`, turn_left → `Move(0.0, 0.0, 0.2)`,
turn_right → `Move(0.0, 0.0, -0.2)`. -/
def Cmd.effect : Cmd → DriverCall
  | .waveHand => .hand true
  | .moveForward => .move 0.5 0.0 0.0
  | .moveBackward => .move (-0.2) 0.0 0.0
  | .turnLeft => .move 0.0 0.0 0.2
  | .turnRight => .move 0.0 0.0 (-0.2)

/-- The neutralizing driver call of each command: `_execute_wave_hand`
calls `self.cancel_wave_hand()` (→ `WaveHand(kHandClose)`), the four
movement executors call `self._cancel_move()` (→ `Move(0.0, 0.0, 0.0)`). -/
def Cmd.neutralize : Cmd → DriverCall
  | .waveHand => .hand false
  | _ => .move 0.0 0.0 0.0

/-- The hold duration slept inside the lock:
`await asyncio.sleep(parameters.get("duration", 1))` in
`_execute_wave_hand`, `await asyncio.sleep(1)` in the four movement
executors. -/
def holdDuration : Cmd → Params → ℚ
  | .waveHand, p => p.duration.getD 1
  | _, _ => 1

/-- Program counter of a background task running `_execute_*` for some
command: `start` = about to enter `async with self.busy_lock`;
`sleeping` = holding the lock, effect issued, inside `asyncio.sleep`;
`done` = returned. -/
inductive Pc
  | start (c : Cmd) (p : Params)
  | sleeping (c : Cmd) (p : Params)
  | done
  deriving DecidableEq

/-- Scheduler state: `lockHeld` is `busy_lock.locked()`, `pending` is the
content of the capacity-1 `command_queue` (`asyncio.Queue(maxsize=1)`), and
`tasks` lists every task created so far with its program counter (the task
id is its list index). -/
structure Sched where
  lockHeld : Bool
  pending : Option (Cmd × Params)
  tasks : List Pc
  deriving DecidableEq

/-- The state at construction time (`__init__`): lock free, queue empty,
no background task. -/
def Sched.init : Sched := ⟨false, none, []⟩

/-- `busy()`: `return self.busy_lock.locked()`. -/
def busy (s : Sched) : Bool := s.lockHeld

/-- What a submit entry point reported doing (to the log): started a
background task, queued the command, or dropped it (`QueueFull`). -/
inductive SubmitOutcome
  | startedBackground
  | queued
  | dropped
  deriving DecidableEq

/-- One submit entry point (`wave_hand` / `move_forward` / `move_backward`
/ `turn_left` / `turn_right`, all structurally identical): if `self.busy()`
then `put_nowait((self._execute_<c>, parameters))`, dropping on
`QueueFull`; else `asyncio.create_task(self._execute_<c>(parameters))`,
appending a fresh task at its start.  The body has no suspension point, so
it is a single atomic step, and the caller is never blocked on the created
task. -/
def submit (s : Sched) (c : Cmd) (p : Params) : Sched × SubmitOutcome :=
  if s.lockHeld then
    match s.pending with
    | none => ({ s with pending := some (c, p) }, .queued)
    | some _ => (s, .dropped)
  else
    ({ s with tasks := s.tasks ++ [Pc.start c p] }, .startedBackground)

/-- One atomic block of background task `tid`, with `r` the integer result
returned by the driver call (if any) made in the block; `none` means the
task cannot take a step now (no such task, task finished, or it is blocked
in `busy_lock.acquire` because the lock is held).  The result carries the
new state, the driver calls issued, and whether a driver failure was
logged (`result != 0`). -/
def runTask (s : Sched) (tid : Nat) (r : Int) :
    Option (Sched × List DriverCall × Bool) :=
  match s.tasks[tid]? with
  | none => none
  | some .done => none
  | some (.start c p) =>
      if s.lockHeld then
        none
      else
        some ({ s with lockHeld := true,
                       tasks := s.tasks.set tid (.sleeping c p) },
              [c.effect], r != 0)
  | some (.sleeping c _) =>
      match s.pending with
      | some (c2, p2) =>
          some ({ lockHeld := false, pending := none,
                  tasks := s.tasks.set tid (.start c2 p2) },
                [c.neutralize], r != 0)
      | none =>
          some ({ lockHeld := false, pending := none,
                  tasks := s.tasks.set tid .done },
                [c.neutralize], r != 0)

/-- `cancel_wave_hand`: synchronously issues `WaveHand(kHandClose)` (result
`r`, failure logged iff non-zero) and touches neither the lock, nor the
queue, nor any task. -/
def cancelWaveHand (s : Sched) (r : Int) : Sched × DriverCall × Bool :=
  (s, .hand false, r != 0)

/-- A transition label: an external submission arriving at an entry point,
or the event loop letting task `tid` run its next atomic block with driver
result `r`. -/
inductive Label
  | submit (c : Cmd) (p : Params)
  | run (tid : Nat) (r : Int)

/-- The step function of the scheduler on labels. -/
def step (s : Sched) : Label → Option Sched
  | .submit c p => some (submit s c p).1
  | .run tid r => (runTask s tid r).map (·.1)

/-- States reachable from construction under any interleaving of
submissions and task scheduling. -/
inductive Reach : Sched → Prop
  | init : Reach Sched.init
  | next {s l s'} : Reach s → step s l = some s' → Reach s'

/-- A task is in its critical region (holding the lock, between the driver
effect and the release) iff it is sleeping. -/
def Pc.isCrit : Pc → Bool
  | .sleeping _ _ => true
  | _ => false

/-- Number of tasks currently inside the lock-protected
effect/sleep/neutralize region. -/
def critCount (s : Sched) : Nat := s.tasks.countP Pc.isCrit

/-- The lock invariant: the lock is held iff exactly one task is in its
critical region. -/
def lockInv (s : Sched) : Prop :=
  critCount s = if s.lockHeld then 1 else 0

/-- Counting helper: replacing the element at a valid index changes
`countP` by the difference of the predicate on the old and new elements. -/
theorem countP_set_add {α : Type} (p : α → Bool) (l : List α) (i : Nat) (a b : α)
    (h : l[i]? = some a) :
    (l.set i b).countP p + (if p a then 1 else 0)
      = l.countP p + (if p b then 1 else 0) := by
  induction l generalizing i with
  | nil => simp at h
  | cons x xs ih =>
    cases i with
    | zero =>
      simp at h
      subst h
      simp [List.countP_cons]
      omega
    | succ n =>
      simp at h
      have := ih n h
      simp [List.countP_cons]
      omega

/-- Counting helper: an element at a valid index satisfying the predicate
makes `countP` positive. -/
theorem countP_pos_of_get {α : Type} (p : α → Bool) (l : List α) (i : Nat) (a : α)
    (h : l[i]? = some a) (hp : p a = true) : 1 ≤ l.countP p := by
  induction l generalizing i with
  | nil => simp at h
  | cons x xs ih =>
    cases i with
    | zero =>
      simp at h
      subst h
      simp [List.countP_cons, hp]
    | succ n =>
      simp at h
      have := ih n h
      simp [List.countP_cons]
      omega

/-- A submit step preserves the lock invariant: it never touches the lock,
and the task it may create starts outside the critical region. -/
theorem lockInv_submit {s : Sched} (c : Cmd) (p : Params) (h : lockInv s) :
    lockInv (submit s c p).1 := by
  unfold lockInv critCount at h ⊢
  unfold submit
  cases hl : s.lockHeld with
  | true =>
    cases hpq : s.pending with
    | none => simpa [hl, hpq] using h
    | some q => simpa [hl, hpq] using h
  | false =>
    simp only [hl, if_false, Bool.false_eq_true]
    simpa [List.countP_append, List.countP_cons, Pc.isCrit, hl] using h

/-- A task step preserves the lock invariant: entering the critical region
requires the lock to be free and takes it; leaving gives it back. -/
theorem lockInv_runTask {s : Sched} {tid : Nat} {r : Int}
    {out : Sched × List DriverCall × Bool}
    (h : runTask s tid r = some out) (hInv : lockInv s) : lockInv out.1 := by
  unfold runTask at h
  cases hpc : s.tasks[tid]? with
  | none => rw [hpc] at h; exact absurd h (by simp)
  | some pc =>
    rw [hpc] at h
    cases pc with
    | done => exact absurd h (by simp)
    | start c p =>
      cases hl : s.lockHeld with
      | true => rw [hl] at h; exact absurd h (by simp)
      | false =>
        rw [hl] at h
        simp only [Bool.false_eq_true, if_false, Option.some.injEq] at h
        subst h
        unfold lockInv critCount at hInv ⊢
        rw [hl] at hInv
        simp only [if_false, Bool.false_eq_true] at hInv
        have hset := countP_set_add Pc.isCrit s.tasks tid
          (.start c p) (.sleeping c p) hpc
        simp [Pc.isCrit] at hset
        simp only [if_true]
        omega
    | sleeping c p =>
      have hpos := countP_pos_of_get Pc.isCrit s.tasks tid (.sleeping c p) hpc rfl
      have hl : s.lockHeld = true := by
        unfold lockInv critCount at hInv
        cases hl : s.lockHeld with
        | true => rfl
        | false =>
          rw [hl] at hInv
          simp only [Bool.false_eq_true, if_false] at hInv
          exact absurd hInv (by omega)
      have hone : s.tasks.countP Pc.isCrit = 1 := by
        unfold lockInv critCount at hInv
        rw [hl] at hInv
        simpa using hInv
      cases hpq : s.pending with
      | some q =>
        obtain ⟨c2, p2⟩ := q
        rw [hpq] at h
        simp only [Option.some.injEq] at h
        subst h
        unfold lockInv critCount
        have hset := countP_set_add Pc.isCrit s.tasks tid
          (.sleeping c p) (.start c2 p2) hpc
        simp [Pc.isCrit] at hset
        simp only [Bool.false_eq_true, if_false]
        omega
      | none =>
        rw [hpq] at h
        simp only [Option.some.injEq] at h
        subst h
        unfold lockInv critCount
        have hset := countP_set_add Pc.isCrit s.tasks tid
          (.sleeping c p) .done hpc
        simp [Pc.isCrit] at hset
        simp only [Bool.false_eq_true, if_false]
        omega

/-- Every step of the scheduler preserves the lock invariant. -/
theorem lockInv_step {s s' : Sched} {l : Label}
    (h : step s l = some s') (hInv : lockInv s) : lockInv s' := by
  cases l with
  | submit c p =>
    simp only [step, Option.some.injEq] at h
    subst h
    exact lockInv_submit c p hInv
  | run tid r =>
    simp only [step] at h
    cases hr : runTask s tid r with
    | none => rw [hr] at h; exact absurd h (by simp)
    | some out =>
      rw [hr] at h
      simp only [Option.map_some', Option.some.injEq] at h
      subst h
      exact lockInv_runTask hr hInv

/-- Every reachable scheduler state satisfies the lock invariant. -/
theorem lockInv_reach {s : Sched} (h : Reach s) : lockInv s := by
  induction h with
  | init => exact rfl
  | next hr hstep ih => exact lockInv_step hstep ih

/-- Concrete state with one task about to acquire the lock. -/
def sStart : Sched := ⟨false, none, [Pc.start .waveHand ⟨none⟩]⟩

/-- Concrete state with one task in its critical region, queue empty. -/
def sSleep : Sched := ⟨true, none, [Pc.sleeping .waveHand ⟨none⟩]⟩

/-- Concrete state with one task in its critical region and a queued
command. -/
def sSleepQ : Sched := ⟨true, some (.turnLeft, ⟨none⟩), [Pc.sleeping .waveHand ⟨none⟩]⟩

/-- C1: every submit entry point (wave_hand, move_forward, move_backward,
turn_left, turn_right) admits as follows: if `busy()` is false, a new
background execution unit running the command is appended (the caller is
not blocked: submit returns in the same atomic step, leaving the new unit
at its start) and the lock and pending slot are untouched; if `busy()` is
true and the capacity-1 slot is empty, the command is placed in the slot;
if `busy()` is true and the slot is occupied, the command is discarded with
no error and the occupant is not replaced (the state is unchanged). -/
theorem submit_admission (s : Sched) (c : Cmd) (p : Params) :
    (busy s = false →
      (submit s c p).2 = .startedBackground ∧
      (submit s c p).1.tasks = s.tasks ++ [Pc.start c p] ∧
      (submit s c p).1.pending = s.pending ∧
      (submit s c p).1.lockHeld = s.lockHeld) ∧
    (busy s = true → s.pending = none →
      (submit s c p).2 = .queued ∧
      (submit s c p).1.pending = some (c, p) ∧
      (submit s c p).1.tasks = s.tasks ∧
      (submit s c p).1.lockHeld = s.lockHeld) ∧
    (busy s = true → ∀ q, s.pending = some q →
      (submit s c p).2 = .dropped ∧ (submit s c p).1 = s) := by
  unfold busy submit
  refine ⟨?_, ?_, ?_⟩
  · intro h
    simp [h]
  · intro h hq
    simp [h, hq]
  · intro h q hq
    simp [h, hq]

/-- Witness for C1 at concrete inputs covering the three branches. -/
theorem submit_admission_witness :
    ((submit Sched.init .moveForward ⟨none⟩).2 = .startedBackground ∧
      (submit Sched.init .moveForward ⟨none⟩).1.tasks
        = Sched.init.tasks ++ [Pc.start .moveForward ⟨none⟩] ∧
      (submit Sched.init .moveForward ⟨none⟩).1.pending = Sched.init.pending ∧
      (submit Sched.init .moveForward ⟨none⟩).1.lockHeld = Sched.init.lockHeld) ∧
    ((submit sSleep .turnLeft ⟨none⟩).2 = .queued ∧
      (submit sSleep .turnLeft ⟨none⟩).1.pending = some (.turnLeft, ⟨none⟩) ∧
      (submit sSleep .turnLeft ⟨none⟩).1.tasks = sSleep.tasks ∧
      (submit sSleep .turnLeft ⟨none⟩).1.lockHeld = sSleep.lockHeld) ∧
    ((submit sSleepQ .turnRight ⟨none⟩).2 = .dropped ∧
      (submit sSleepQ .turnRight ⟨none⟩).1 = sSleepQ) :=
  ⟨(submit_admission Sched.init .moveForward ⟨none⟩).1 rfl,
   (submit_admission sSleep .turnLeft ⟨none⟩).2.1 rfl rfl,
   (submit_admission sSleepQ .turnRight ⟨none⟩).2.2 rfl (.turnLeft, ⟨none⟩) rfl⟩

/-- C2: in every reachable state, under any interleaving of submissions and
completions, at most one execution unit is inside the lock-protected
physical-effect/wait/neutralize region, and there is exactly one such unit
precisely when the lock is held. -/
theorem exec_mutual_exclusion (s : Sched) (h : Reach s) :
    critCount s ≤ 1 ∧ critCount s = (if s.lockHeld then 1 else 0) := by
  have hi := lockInv_reach h
  unfold lockInv at hi
  refine ⟨?_, hi⟩
  rw [hi]
  split <;> omega

/-- Witness for C2 at a reachable busy state (submit then acquire). -/
theorem exec_mutual_exclusion_witness :
    critCount sSleep ≤ 1 ∧ critCount sSleep = (if sSleep.lockHeld then 1 else 0) :=
  exec_mutual_exclusion sSleep
    (@Reach.next sStart (.run 0 0) sSleep
      (@Reach.next Sched.init (.submit .waveHand ⟨none⟩) sStart Reach.init rfl)
      rfl)

/-- C3 (counterexample): the busy check is not atomic with lock
acquisition.  From the initial idle state, a submit observes idle and
starts a background unit, yet `busy()` is still false afterwards (the unit
has not yet acquired the lock), so a second racing submit also observes
idle and also starts a background unit: both submits take the idle path and
two execution units exist concurrently. -/
theorem idle_check_not_atomic :
    (submit Sched.init .moveForward ⟨none⟩).2 = .startedBackground ∧
    busy (submit Sched.init .moveForward ⟨none⟩).1 = false ∧
    (submit (submit Sched.init .moveForward ⟨none⟩).1 .turnLeft ⟨none⟩).2
      = .startedBackground ∧
    (submit (submit Sched.init .moveForward ⟨none⟩).1 .turnLeft ⟨none⟩).1.tasks
      = [Pc.start .moveForward ⟨none⟩, Pc.start .turnLeft ⟨none⟩] := by
  decide

/-- C3 (amended): a submit that observes Idle starts a background unit but
does not itself transition the scheduler to Busy; two racing submits can
therefore both take the idle path.  Serialization happens at the lock
instead: a background unit passes its acquire step only when the lock is
free, and that step atomically sets the lock and issues the command's
physical effect, so execution units are still mutually excluded. -/
theorem lock_acquire_serializes (s : Sched) (tid : Nat) (r : Int) (c : Cmd)
    (p : Params) (out : Sched × List DriverCall × Bool)
    (hpc : s.tasks[tid]? = some (.start c p))
    (h : runTask s tid r = some out) :
    s.lockHeld = false ∧ out.1.lockHeld = true ∧
    out.1.tasks = s.tasks.set tid (.sleeping c p) ∧
    out.2.1 = [c.effect] := by
  unfold runTask at h
  rw [hpc] at h
  cases hl : s.lockHeld with
  | true => rw [hl] at h; exact absurd h (by simp)
  | false =>
    rw [hl] at h
    simp only [Bool.false_eq_true, if_false, Option.some.injEq] at h
    subst h
    exact ⟨rfl, rfl, rfl, rfl⟩

/-- Witness for the amended C3 at a concrete spawned unit. -/
theorem lock_acquire_serializes_witness :
    sStart.lockHeld = false ∧ sSleep.lockHeld = true ∧
    sSleep.tasks = sStart.tasks.set 0 (.sleeping .waveHand ⟨none⟩) ∧
    ([DriverCall.hand true] : List DriverCall) = [Cmd.effect .waveHand] := by
  have h := lock_acquire_serializes sStart 0 0 .waveHand ⟨none⟩
    (sSleep, [DriverCall.hand true], false) rfl rfl
  exact ⟨h.1, h.2.1, h.2.2.1, h.2.2.2⟩

/-- C4: when the execution of command `c` completes (its atomic
neutralize-and-release block runs), the pending slot is checked in that
same step: if occupied, exactly its one occupant is removed and the same
background unit continues at the start of the occupant's execution, with no
external stimulus; if empty, the unit finishes.  Either way the neutralize
driver call is issued and the lock is released. -/
theorem drain_after_completion (s : Sched) (tid : Nat) (r : Int) (c : Cmd)
    (p : Params) (hpc : s.tasks[tid]? = some (.sleeping c p)) :
    (∀ c2 p2, s.pending = some (c2, p2) →
      runTask s tid r
        = some (⟨false, none, s.tasks.set tid (.start c2 p2)⟩,
                [c.neutralize], r != 0)) ∧
    (s.pending = none →
      runTask s tid r
        = some (⟨false, none, s.tasks.set tid .done⟩, [c.neutralize], r != 0)) := by
  unfold runTask
  rw [hpc]
  constructor
  · intro c2 p2 hq
    rw [hq]
  · intro hq
    rw [hq]

/-- Witness for C4: draining a queued turn_left after a wave completes, and
finishing when the queue is empty. -/
theorem drain_after_completion_witness :
    runTask sSleepQ 0 0
      = some (⟨false, none, [Pc.start .turnLeft ⟨none⟩]⟩,
              [DriverCall.hand false], false) ∧
    runTask sSleep 0 0
      = some (⟨false, none, [Pc.done]⟩, [DriverCall.hand false], false) :=
  ⟨(drain_after_completion sSleepQ 0 0 .waveHand ⟨none⟩ rfl).1 .turnLeft ⟨none⟩ rfl,
   (drain_after_completion sSleep 0 0 .waveHand ⟨none⟩ rfl).2 rfl⟩

/-- C5: `cancel_wave_hand` is synchronous and state-free: in every state it
issues the hand-close driver call, acquires no lock, reads or writes no
pending slot, and leaves the scheduler state — in particular `busy()`'s
value and the slot contents — unchanged; a failing driver call is only
logged. -/
theorem cancel_wave_hand_frame (s : Sched) (r : Int) :
    (cancelWaveHand s r).1 = s ∧
    busy (cancelWaveHand s r).1 = busy s ∧
    (cancelWaveHand s r).1.pending = s.pending ∧
    (cancelWaveHand s r).1.lockHeld = s.lockHeld ∧
    (cancelWaveHand s r).2.1 = DriverCall.hand false ∧
    (cancelWaveHand s r).2.2 = (r != 0) :=
  ⟨rfl, rfl, rfl, rfl, rfl, rfl⟩

/-- C6: `busy()` returns exactly the lock's held state (it is defined as
`busy_lock.locked()`, with no separately tracked boolean), and in every
reachable state the lock is held precisely when one execution unit is in
its physical-effect/wait/neutralize region, so the lock's held state is the
sole Busy/Idle signal. -/
theorem busy_iff_lock_held (s : Sched) (h : Reach s) :
    busy s = s.lockHeld ∧ (busy s = true ↔ critCount s = 1) := by
  refine ⟨rfl, ?_⟩
  have hi := lockInv_reach h
  unfold lockInv at hi
  unfold busy
  cases hl : s.lockHeld with
  | true =>
    rw [hl] at hi
    simp only [if_true] at hi
    simp [hi]
  | false =>
    rw [hl] at hi
    simp only [Bool.false_eq_true, if_false] at hi
    simp [hi]

/-- Witness for C6 at a reachable busy state. -/
theorem busy_iff_lock_held_witness :
    busy sSleep = sSleep.lockHeld ∧ (busy sSleep = true ↔ critCount sSleep = 1) :=
  busy_iff_lock_held sSleep
    (@Reach.next sStart (.run 0 0) sSleep
      (@Reach.next Sched.init (.submit .waveHand ⟨none⟩) sStart Reach.init rfl)
      rfl)

/-- C7: the scheduler's behaviour is independent of the driver result: a
task step from the same state produces the same successor state and the
same driver calls whatever the result is (so a non-zero result aborts
nothing, is not retried, does not touch the lock or the pending slot, the
duration is still waited out — the task still reaches its sleep — and the
neutralizing call is still made), and the failure is logged exactly when
the result is non-zero. -/
theorem driver_failure_logged_only (s : Sched) (tid : Nat) (r r2 : Int) :
    ((runTask s tid r).map (fun o => (o.1, o.2.1))
      = (runTask s tid r2).map (fun o => (o.1, o.2.1))) ∧
    (∀ out, runTask s tid r = some out → out.2.2 = (r != 0)) := by
  unfold runTask
  cases s.tasks[tid]? with
  | none => simp
  | some pc =>
    cases pc with
    | done => simp
    | start c p =>
      cases s.lockHeld with
      | true => simp
      | false =>
        constructor
        · rfl
        · intro out hout
          simp only [Bool.false_eq_true, if_false, Option.some.injEq] at hout
          rw [← hout]
    | sleeping c p =>
      cases s.pending with
      | none =>
        constructor
        · rfl
        · intro out hout
          simp only [Option.some.injEq] at hout
          rw [← hout]
      | some q =>
        obtain ⟨c2, p2⟩ := q
        constructor
        · rfl
        · intro out hout
          simp only [Option.some.injEq] at hout
          rw [← hout]

/-- Witness for C7: a failing effect call (result 7) leads to the same
state and calls as a succeeding one (result 0), and is logged. -/
theorem driver_failure_logged_only_witness :
    ((runTask sStart 0 7).map (fun o => (o.1, o.2.1))
      = (runTask sStart 0 0).map (fun o => (o.1, o.2.1))) ∧
    ((sSleep, ([DriverCall.hand true], true)) : Sched × List DriverCall × Bool).2.2
      = ((7:Int) != 0) :=
  ⟨(driver_failure_logged_only sStart 0 7 0).1,
   (driver_failure_logged_only sStart 0 7 0).2
     (sSleep, ([DriverCall.hand true], true)) rfl⟩

/-- Clamping to the interval from `lo` to `hi`. -/
def clampQ (lo hi x : ℚ) : ℚ := max lo (min hi x)

/-- The hold duration the claim asserts for the gesture command: the
caller-specified value (default 1.0) clamped to the range 0.1 to 10. -/
def claimedGestureDuration (p : Params) : ℚ :=
  clampQ 0.1 10 (p.duration.getD 1)

/-- The front-end constraint on the wave duration (`WaveHandRequest` in
`main.py`: `duration: float = Field(default=1.0, ge=0.1, le=10.0)`):
out-of-range requests are rejected by validation, not clamped. -/
def validDuration (d : ℚ) : Prop := 0.1 ≤ d ∧ d ≤ 10

/-- C8 (counterexample): the scheduler does not clamp the gesture duration.
`_execute_wave_hand` sleeps `parameters.get("duration", 1)` as given: at
duration 0.05 the code holds for 0.05 s while the claimed clamped duration
is 0.1 s. -/
theorem gesture_duration_not_clamped :
    holdDuration .waveHand ⟨some 0.05⟩ = 0.05 ∧
    claimedGestureDuration ⟨some 0.05⟩ = 0.1 ∧
    holdDuration .waveHand ⟨some 0.05⟩ ≠ claimedGestureDuration ⟨some 0.05⟩ := by
  refine ⟨rfl, ?_, ?_⟩ <;>
    norm_num [claimedGestureDuration, clampQ, holdDuration, min_def, max_def]

/-- C8 (amended): the hold duration is the fixed 1 second for the four
movement commands; for the gesture it is the caller-specified duration
unchanged (default 1.0 s when absent), with no clamping in the scheduler —
the range 0.1 to 10 s is enforced by front-end validation, which rejects
rather than clamps, so on every duration the front-end admits the clamped
value and the actual hold coincide. -/
theorem hold_duration_amended :
    (∀ p, holdDuration .moveForward p = 1 ∧ holdDuration .moveBackward p = 1 ∧
          holdDuration .turnLeft p = 1 ∧ holdDuration .turnRight p = 1) ∧
    holdDuration .waveHand ⟨none⟩ = 1 ∧
    (∀ d, holdDuration .waveHand ⟨some d⟩ = d) ∧
    (∀ d, validDuration d → claimedGestureDuration ⟨some d⟩
      = holdDuration .waveHand ⟨some d⟩) := by
  refine ⟨fun p => ⟨rfl, rfl, rfl, rfl⟩, rfl, fun d => rfl, fun d hd => ?_⟩
  unfold claimedGestureDuration clampQ holdDuration
  simp only [Option.getD_some]
  rw [min_eq_right hd.2, max_eq_right hd.1]

/-- Witness for the amended C8 at the in-range duration 1. -/
theorem hold_duration_amended_witness :
    (holdDuration .moveForward ⟨none⟩ = 1 ∧ holdDuration .moveBackward ⟨none⟩ = 1 ∧
      holdDuration .turnLeft ⟨none⟩ = 1 ∧ holdDuration .turnRight ⟨none⟩ = 1) ∧
    holdDuration .waveHand ⟨some 1⟩ = 1 ∧
    claimedGestureDuration ⟨some 1⟩ = holdDuration .waveHand ⟨some 1⟩ :=
  ⟨hold_duration_amended.1 ⟨none⟩,
   hold_duration_amended.2.2.1 1,
   hold_duration_amended.2.2.2 1 ⟨by norm_num, by norm_num⟩⟩

/-- C9: the driver calls carry exactly the hardcoded velocities of the
source — forward `Move(0.5, 0.0, 0.0)`, backward `Move(-0.2, 0.0, 0.0)`,
turn-left `Move(0.0, 0.0, 0.2)`, turn-right `Move(0.0, 0.0, -0.2)` — every
movement neutralizes with the zero-velocity call `Move(0.0, 0.0, 0.0)`, and
the gesture's neutralizing call is identical to the call `cancel_wave_hand`
issues. -/
theorem movement_velocities :
    Cmd.effect .moveForward = .move 0.5 0.0 0.0 ∧
    Cmd.effect .moveBackward = .move (-0.2) 0.0 0.0 ∧
    Cmd.effect .turnLeft = .move 0.0 0.0 0.2 ∧
    Cmd.effect .turnRight = .move 0.0 0.0 (-0.2) ∧
    Cmd.neutralize .moveForward = .move 0.0 0.0 0.0 ∧
    Cmd.neutralize .moveBackward = .move 0.0 0.0 0.0 ∧
    Cmd.neutralize .turnLeft = .move 0.0 0.0 0.0 ∧
    Cmd.neutralize .turnRight = .move 0.0 0.0 0.0 ∧
    (∀ s r, Cmd.neutralize .waveHand = (cancelWaveHand s r).2.1) :=
  ⟨rfl, rfl, rfl, rfl, rfl, rfl, rfl, rfl, fun _ _ => rfl⟩

/-- Formal parameter names (after `self`) of `turn_left` in the abstract
interface `RobotCommander` (`async def turn_left(self, parameters: dict =
{})`). -/
def abstractTurnLeftFormals : List String := ["parameters"]

/-- Formal parameter names (after `self`) of `BoosterT1Commander.turn_left`
(`async def turn_left(self, parameters: dict = {})`). -/
def boosterTurnLeftFormals : List String := ["parameters"]

/-- Formal parameter names (after `self`) of `MockRobotCommander.turn_left`
(`async def turn_left(self)`). -/
def mockTurnLeftFormals : List String := []

/-- Keyword arguments the front-end passes at POST /turn-left:
`await robot_cmd.turn_left(parameters={})`. -/
def frontEndTurnLeftKwargs : List String := ["parameters"]

/-- Python keyword binding: a call succeeds only if every keyword argument
names a formal parameter; otherwise it raises `TypeError`. -/
def bindsKwargs (formals kwargs : List String) : Bool :=
  kwargs.all fun k => formals.contains k

/-- The second component enqueued alongside `_execute_turn_left` when the
robot is busy. -/
inductive QueuedArg
  | intConst (n : Int)
  | dictParams (p : Params)
  deriving DecidableEq

/-- `MockRobotCommander.turn_left` enqueues
`(self._execute_turn_left, 1)` — the constant 1. -/
def mockTurnLeftQueuedArg : QueuedArg := .intConst 1

/-- `BoosterT1Commander.turn_left` enqueues
`(self._execute_turn_left, parameters)` — the submitted parameters. -/
def boosterTurnLeftQueuedArg (p : Params) : QueuedArg := .dictParams p

/-- C10 (code bug): the mock and hardware commanders are not
interchangeable at `turn_left`.  The front-end's call
`turn_left(parameters={})` binds against `BoosterT1Commander.turn_left` and
against the abstract `RobotCommander.turn_left`, but not against
`MockRobotCommander.turn_left`, whose signature has no `parameters` formal
(the call raises `TypeError`); moreover the mock enqueues the constant 1
where the hardware commander enqueues the submitted parameters. -/
theorem mock_turn_left_signature_bug :
    bindsKwargs mockTurnLeftFormals frontEndTurnLeftKwargs = false ∧
    bindsKwargs boosterTurnLeftFormals frontEndTurnLeftKwargs = true ∧
    bindsKwargs abstractTurnLeftFormals frontEndTurnLeftKwargs = true ∧
    mockTurnLeftQueuedArg ≠ boosterTurnLeftQueuedArg ⟨none⟩ := by
  refine ⟨rfl, rfl, rfl, ?_⟩
  intro h
  exact absurd h (by decide)
